import Mathlib

/-
  Shallow embedding of the worldcoin/agentkit server extension.

  Sources embedded here:
  - src/agentkit/src/validate.ts   (validateAgentkitMessage)
  - src/agentkit/src/verify.ts     (verifyAgentkitSignature and chain dispatch)
  - src/unnamed/part_003           (solana.ts: formatSIWSMessage, chain reference)
  - the evm.ts half of validate.ts bundle (extractEVMChainId, formatSIWEMessage)
  - src/agentkit/src/agent-book.ts (createAgentBookVerifier / lookupHuman)
  - src/agentkit/src/storage.ts    (InMemoryAgentKitStorage)
  - src/unnamed/part_005           (hooks.ts: createAgentkitHooks, requestHook,
                                    verifyFailureHook)

  Platform and third-party library functions (WHATWG URL parsing, Date parsing,
  the siwe SiweMessage formatter, viem verifyMessage, tweetnacl ed25519,
  base58, JSON/zod header parsing, the AgentBook RPC read) are modelled as
  total oracles collected in the JsEnv / AgentBookOptions structures; a
  function that can throw in JavaScript is modelled with Except or Option.
  All repository logic (branch order, error strings, state updates) is
  translated directly from the TypeScript.
-/

namespace Agentkit

inductive SignatureType
  | eip191
  | ed25519
  deriving DecidableEq, Repr

inductive SignatureScheme
  | eip191
  | eip1271
  | eip6492
  | siws
  deriving DecidableEq, Repr

/-- Payload carried in the agentkit header (types.ts AgentkitPayloadSchema). -/
structure AgentkitPayload where
  domain : String
  address : String
  statement : Option String
  uri : String
  version : String
  chainId : String
  type : SignatureType
  nonce : String
  issuedAt : String
  expirationTime : Option String
  notBefore : Option String
  requestId : Option String
  resources : Option (List String)
  signatureScheme : Option SignatureScheme
  signature : String
  deriving DecidableEq, Repr

/-- Result of the WHATWG URL parser on a URL string (the parts the code uses). -/
structure URLParts where
  hostname : String
  origin : String
  pathname : String
  deriving DecidableEq, Repr

/-- Arguments handed to the siwe SiweMessage constructor (evm.ts). -/
structure SiweFields where
  domain : String
  address : String
  statement : Option String
  uri : String
  version : String
  chainId : Nat
  nonce : String
  issuedAt : String
  expirationTime : Option String
  notBefore : Option String
  requestId : Option String
  resources : Option (List String)
  deriving DecidableEq, Repr

/-- Platform / third-party oracles used by the embedded code. JavaScript
functions that can throw are modelled with Option or Except. -/
structure JsEnv where
  parseURL : String → Option URLParts
  dateParse : String → Option Int
  now : Int
  prepareSIWE : SiweFields → String
  verifyEVM : String → String → String → Except String Bool
  decodeBase58 : String → Except String (List Nat)
  ed25519Verify : String → List Nat → List Nat → Bool
  parseHeader : String → Except String AgentkitPayload
  lookupHuman : String → String → Except String (Option String)

/-- Prefix test on the character-list model of strings; same semantics as the
runtime startsWith. -/
def strStartsWith (s pre : String) : Bool :=
  pre.data.isPrefixOf s.data

/-- Drop of the first n characters on the character-list model. -/
def strDrop (s : String) (n : Nat) : String :=
  String.mk (s.data.drop n)

/-- ASCII lowercasing on the character-list model; same semantics as the
runtime toLowerCase on the ASCII names used here. -/
def strToLower (s : String) : String :=
  String.mk (s.data.map Char.toLower)

/-- Test that every character is a decimal digit. -/
def strAllDigits (s : String) : Bool :=
  s.data.all Char.isDigit

/-- Decimal value of a digit list, most significant first. -/
def digitsToNat (l : List Char) : Nat :=
  l.foldl (fun acc c => acc * 10 + (c.toNat - 48)) 0

/-- Decimal parse: some value exactly on a nonempty all-digit string; the
semantics of the runtime toNat-style parse. -/
def strToNat? (s : String) : Option Nat :=
  if s.data ≠ [] ∧ s.data.all Char.isDigit then some (digitsToNat s.data) else none

/-- Split of a character list at every colon; always returns a nonempty list,
like the JavaScript split on a colon. -/
def splitOnColonAux : List Char → List (List Char)
  | [] => [[]]
  | ch :: rest =>
    let r := splitOnColonAux rest
    if ch = ':' then [] :: r
    else
      match r with
      | [] => [[ch]]
      | h :: t => (ch :: h) :: t

/-- Split of a string at every colon, as the JavaScript split on a colon. -/
def splitOnColon (s : String) : List String :=
  (splitOnColonAux s.data).map String.mk

/-- JavaScript truthiness of an optional string field: undefined and the empty
string are both falsy. -/
def truthyStr : Option String → Option String
  | some s => if s = "" then none else some s
  | none => none

def DEFAULT_MAX_AGE_MS : Int := 5 * 60 * 1000

structure AgentkitValidationResult where
  valid : Bool
  error : Option String
  deriving DecidableEq, Repr

/-- Shorthand for a returned failing validation result. -/
def okInvalid (msg : String) : Except String AgentkitValidationResult :=
  Except.ok { valid := false, error := some msg }

/-- Shorthand for the returned passing validation result. -/
def okValid : Except String AgentkitValidationResult :=
  Except.ok { valid := true, error := none }

/-- Nonce check of validateAgentkitMessage (its final step in validate.ts). -/
def validateNonce (message : AgentkitPayload)
    (checkNonce : Option (String → Bool)) : Except String AgentkitValidationResult :=
  match checkNonce with
  | some f =>
    if f message.nonce then okValid
    else okInvalid "Nonce validation failed (possible replay attack)"
  | none => okValid

/-- notBefore check of validateAgentkitMessage, then the nonce check. -/
def validateNotBefore (env : JsEnv) (message : AgentkitPayload)
    (checkNonce : Option (String → Bool)) : Except String AgentkitValidationResult :=
  match truthyStr message.notBefore with
  | some nbStr =>
    match env.dateParse nbStr with
    | none => okInvalid "Invalid notBefore timestamp"
    | some nbMs =>
      if env.now < nbMs then
        okInvalid "Message not yet valid (notBefore is in the future)"
      else validateNonce message checkNonce
  | none => validateNonce message checkNonce

/-- Embedding of validateAgentkitMessage (validate.ts). The initial
new URL(expectedResourceUri) is outside any try/catch in the source, so its
failure is a thrown error, modelled as Except.error. -/
def validateAgentkitMessage (env : JsEnv) (message : AgentkitPayload)
    (expectedResourceUri : String) (maxAge : Option Int)
    (checkNonce : Option (String → Bool)) : Except String AgentkitValidationResult :=
  match env.parseURL expectedResourceUri with
  | none => Except.error ("Invalid URL: " ++ expectedResourceUri)
  | some expectedUrl =>
    let maxAgeMs := maxAge.getD DEFAULT_MAX_AGE_MS
    if message.domain ≠ expectedUrl.hostname then
      okInvalid ("Domain mismatch: expected \"" ++ expectedUrl.hostname ++
        "\", got \"" ++ message.domain ++ "\"")
    else
      match env.parseURL message.uri with
      | none => okInvalid ("Invalid URI: \"" ++ message.uri ++ "\"")
      | some messageUrl =>
        if messageUrl.origin ≠ expectedUrl.origin then
          okInvalid ("URI mismatch: expected origin \"" ++ expectedUrl.origin ++
            "\", got \"" ++ messageUrl.origin ++ "\"")
        else
          match env.dateParse message.issuedAt with
          | none => okInvalid "Invalid issuedAt timestamp"
          | some issuedAtMs =>
            let age := env.now - issuedAtMs
            if age > maxAgeMs then
              okInvalid ("Message too old: " ++ toString ((age + 500).ediv 1000) ++
                "s exceeds " ++ toString (maxAgeMs.ediv 1000) ++ "s limit")
            else if age < 0 then
              okInvalid "issuedAt is in the future"
            else
              match truthyStr message.expirationTime with
              | some expStr =>
                match env.dateParse expStr with
                | none => okInvalid "Invalid expirationTime timestamp"
                | some expMs =>
                  if expMs < env.now then okInvalid "Message expired"
                  else validateNotBefore env message checkNonce
              | none => validateNotBefore env message checkNonce

/-- Embedding of extractSolanaChainReference (solana.ts): destructures the
second element of chainId.split(":"); an absent element interpolates as the
text undefined in the produced message. -/
def extractSolanaChainReference (chainId : String) : String :=
  match (splitOnColon chainId).get? 1 with
  | some r => r
  | none => "undefined"

/-- CompleteAgentkitInfo (types.ts): the info object the verifier assembles
from the payload and hands to the chain codec formatters. -/
structure CompleteAgentkitInfo where
  domain : String
  uri : String
  statement : Option String
  version : String
  chainId : String
  type : SignatureType
  nonce : String
  issuedAt : String
  expirationTime : Option String
  notBefore : Option String
  requestId : Option String
  resources : Option (List String)
  deriving DecidableEq, Repr

/-- Embedding of formatSIWSMessage (solana.ts). The line list starts with the
header line, then the address, then a blank line, mirroring the source array
literal. Optional blocks follow JavaScript truthiness. -/
def formatSIWSMessage (info : CompleteAgentkitInfo) (address : String) : String :=
  let lines1 : List String :=
    [info.domain ++ " wants you to sign in with your Solana account:", address, ""]
  let lines2 :=
    match truthyStr info.statement with
    | some s => lines1 ++ [s, ""]
    | none => lines1
  let lines3 := lines2 ++
    ["URI: " ++ info.uri,
     "Version: " ++ info.version,
     "Chain ID: " ++ extractSolanaChainReference info.chainId,
     "Nonce: " ++ info.nonce,
     "Issued At: " ++ info.issuedAt]
  let lines4 :=
    match truthyStr info.expirationTime with
    | some e => lines3 ++ ["Expiration Time: " ++ e]
    | none => lines3
  let lines5 :=
    match truthyStr info.notBefore with
    | some nb => lines4 ++ ["Not Before: " ++ nb]
    | none => lines4
  let lines6 :=
    match truthyStr info.requestId with
    | some r => lines5 ++ ["Request ID: " ++ r]
    | none => lines5
  let lines7 :=
    match info.resources with
    | some rs =>
      if rs.length > 0 then lines6 ++ ["Resources:"] ++ rs.map (fun r => "- " ++ r)
      else lines6
    | none => lines6
  String.intercalate "\n" lines7

/-- Embedding of extractEVMChainId (evm.ts): the regex eip155:(digits) with
anchors; failure is a thrown Error. -/
def extractEVMChainId (chainId : String) : Except String Nat :=
  if strStartsWith chainId "eip155:" ∧ strDrop chainId 7 ≠ "" ∧
      strAllDigits (strDrop chainId 7) then
    match strToNat? (strDrop chainId 7) with
    | some n => Except.ok n
    | none => Except.error ("Invalid EVM chainId format: " ++ chainId ++ ". Expected eip155:<number>")
  else
    Except.error ("Invalid EVM chainId format: " ++ chainId ++ ". Expected eip155:<number>")

/-- Embedding of formatSIWEMessage (evm.ts): extracts the numeric chain id,
then formats through the siwe library (abstracted as env.prepareSIWE). -/
def formatSIWEMessage (env : JsEnv) (info : CompleteAgentkitInfo) (address : String) :
    Except String String :=
  match extractEVMChainId info.chainId with
  | Except.error e => Except.error e
  | Except.ok numericChainId =>
    Except.ok (env.prepareSIWE
      { domain := info.domain, address := address, statement := info.statement,
        uri := info.uri, version := info.version, chainId := numericChainId,
        nonce := info.nonce, issuedAt := info.issuedAt,
        expirationTime := info.expirationTime, notBefore := info.notBefore,
        requestId := info.requestId, resources := info.resources })

/-- Info object assembled from the payload in verify.ts (both code paths build
the same field list). -/
def payloadInfo (payload : AgentkitPayload) : CompleteAgentkitInfo :=
  { domain := payload.domain, uri := payload.uri, statement := payload.statement,
    version := payload.version, chainId := payload.chainId, type := payload.type,
    nonce := payload.nonce, issuedAt := payload.issuedAt,
    expirationTime := payload.expirationTime, notBefore := payload.notBefore,
    requestId := payload.requestId, resources := payload.resources }

structure AgentkitVerifyResult where
  valid : Bool
  address : Option String
  error : Option String
  deriving DecidableEq, Repr

/-- Embedding of verifyEVMPayload (verify.ts). The message formatting happens
before the inner try, so a formatting throw escapes (Except.error); the inner
try around verifyEVMSignature maps throws to a failing result. -/
def verifyEVMPayload (env : JsEnv) (payload : AgentkitPayload) :
    Except String AgentkitVerifyResult :=
  match formatSIWEMessage env (payloadInfo payload) payload.address with
  | Except.error e => Except.error e
  | Except.ok message =>
    match env.verifyEVM payload.address message payload.signature with
    | Except.error msg =>
      Except.ok { valid := false, address := none, error := some msg }
    | Except.ok false =>
      Except.ok { valid := false, address := none, error := some "Signature verification failed" }
    | Except.ok true =>
      Except.ok { valid := true, address := some payload.address, error := none }

/-- Embedding of verifySolanaPayload (verify.ts): format the SIWS message,
base58-decode signature then address inside one try, check the 64 and 32 byte
lengths, then ed25519-verify. -/
def verifySolanaPayload (env : JsEnv) (payload : AgentkitPayload) : AgentkitVerifyResult :=
  let message := formatSIWSMessage (payloadInfo payload) payload.address
  match env.decodeBase58 payload.signature with
  | Except.error msg =>
    { valid := false, address := none, error := some ("Invalid Base58 encoding: " ++ msg) }
  | Except.ok signature =>
    match env.decodeBase58 payload.address with
    | Except.error msg =>
      { valid := false, address := none, error := some ("Invalid Base58 encoding: " ++ msg) }
    | Except.ok publicKey =>
      if signature.length ≠ 64 then
        { valid := false, address := none,
          error := some ("Invalid signature length: expected 64 bytes, got " ++
            toString signature.length) }
      else if publicKey.length ≠ 32 then
        { valid := false, address := none,
          error := some ("Invalid public key length: expected 32 bytes, got " ++
            toString publicKey.length) }
      else if env.ed25519Verify message signature publicKey then
        { valid := true, address := some payload.address, error := none }
      else
        { valid := false, address := none, error := some "Solana signature verification failed" }

/-- Error text of the unsupported-namespace branch in verify.ts. -/
def unsupportedNamespaceError (chainId : String) : String :=
  "Unsupported chain namespace: " ++ chainId ++ ". Supported: eip155:* (EVM), solana:* (Solana)"

/-- Embedding of verifyAgentkitSignature (verify.ts): dispatch on the chainId
prefix; the outer try maps any escaped throw to a failing result. -/
def verifyAgentkitSignature (env : JsEnv) (payload : AgentkitPayload) : AgentkitVerifyResult :=
  if strStartsWith payload.chainId "eip155:" then
    match verifyEVMPayload env payload with
    | Except.ok r => r
    | Except.error msg => { valid := false, address := none, error := some msg }
  else if strStartsWith payload.chainId "solana:" then
    verifySolanaPayload env payload
  else
    { valid := false, address := none, error := some (unsupportedNamespaceError payload.chainId) }

/-- Association-list lookup, modelling JavaScript Map.get on a map whose keys
are unique (string keys here). -/
def lookupAssoc {α : Type} : List (String × α) → String → Option α
  | [], _ => none
  | (k, v) :: rest, key => if k = key then some v else lookupAssoc rest key

/-- Association-list update, modelling Map.set: replace in place or append. -/
def setAssoc {α : Type} : List (String × α) → String → α → List (String × α)
  | [], key, v => [(key, v)]
  | (k, w) :: rest, key, v =>
    if k = key then (key, v) :: rest else (k, w) :: setAssoc rest key v

/-- Association-list removal, modelling Map.delete on unique keys. -/
def eraseAssoc {α : Type} : List (String × α) → String → List (String × α)
  | [], _ => []
  | (k, w) :: rest, key => if k = key then rest else (k, w) :: eraseAssoc rest key

/-- Pending-discount record stored by the request hook (hooks.ts). -/
structure PendingDiscount where
  humanId : String
  address : String
  createdAt : Int
  deriving DecidableEq, Repr

/-- In-memory state of the reference storage (storage.ts) plus the
pendingDiscounts map held in the createAgentkitHooks closure (hooks.ts). -/
structure HookState where
  usage : List (String × Nat)
  nonces : List String
  pendingDiscounts : List (String × PendingDiscount)
  deriving DecidableEq, Repr

/-- Usage key of InMemoryAgentKitStorage: endpoint ++ ":" ++ humanId. -/
def usageKey (endpoint humanId : String) : String := endpoint ++ ":" ++ humanId

/-- InMemoryAgentKitStorage.getUsageCount (storage.ts). -/
def getUsageCount (st : HookState) (endpoint humanId : String) : Nat :=
  (lookupAssoc st.usage (usageKey endpoint humanId)).getD 0

/-- InMemoryAgentKitStorage.incrementUsage (storage.ts). -/
def incrementUsage (st : HookState) (endpoint humanId : String) : HookState :=
  let key := usageKey endpoint humanId
  let newCount := (lookupAssoc st.usage key).getD 0 + 1
  { st with usage := setAssoc st.usage key newCount }

/-- InMemoryAgentKitStorage.hasUsedNonce (storage.ts). -/
def hasUsedNonce (st : HookState) (nonce : String) : Bool :=
  st.nonces.contains nonce

/-- InMemoryAgentKitStorage.recordNonce (storage.ts). -/
def recordNonce (st : HookState) (nonce : String) : HookState :=
  { st with nonces := st.nonces ++ [nonce] }

/-- AgentkitMode (types.ts). uses is optional in the source; percent is a
JavaScript number, of which the constructor admits only integers, so it is
carried as an Int. -/
inductive AgentkitMode
  | free
  | freeTrial (uses : Option Nat)
  | discount (percent : Int) (uses : Option Nat)
  deriving DecidableEq, Repr

/-- Which optional methods the supplied AgentKitStorage implements; the usage
methods are mandatory on every storage instance. Data semantics follow the
in-memory reference implementation acting on HookState. -/
structure StorageConfig where
  hasUsedNonceSupported : Bool
  recordNonceSupported : Bool
  deriving DecidableEq, Repr

structure CreateAgentkitHooksOptions where
  mode : Option AgentkitMode
  storage : Option StorageConfig
  deriving DecidableEq, Repr

def modeTypeName : AgentkitMode → String
  | .free => "free"
  | .freeTrial _ => "free-trial"
  | .discount _ _ => "discount"

def requiresStorage : AgentkitMode → Bool
  | .free => false
  | .freeTrial _ => true
  | .discount _ _ => true

structure HooksConfig where
  mode : AgentkitMode
  storage : Option StorageConfig
  deriving DecidableEq, Repr

/-- Embedding of the validation part of createAgentkitHooks (hooks.ts):
defaults the mode to free, rejects free-trial and discount without storage,
and rejects a discount percent outside 1..100 (Number.isInteger holds for
every Int of the model). -/
def createAgentkitHooks (options : CreateAgentkitHooksOptions) : Except String HooksConfig :=
  let mode := options.mode.getD AgentkitMode.free
  if requiresStorage mode ∧ options.storage.isNone then
    Except.error ("AgentKit mode \"" ++ modeTypeName mode ++ "\" requires a storage instance")
  else
    match mode with
    | .discount percent _ =>
      if percent ≤ 0 ∨ percent > 100 then
        Except.error ("Discount percent must be an integer between 1 and 100, got " ++
          toString percent)
      else Except.ok { mode := mode, storage := options.storage }
    | _ => Except.ok { mode := mode, storage := options.storage }

/-- Storage calls the hooks make directly, recorded in order. -/
inductive HookCall
  | recordNonceCall (nonce : String)
  | lookupHumanCall (address chainId : String)
  | getUsageCountCall (endpoint humanId : String)
  | incrementUsageCall (endpoint humanId : String)
  deriving DecidableEq, Repr

/-- Observability events (AgentkitHookEvent in hooks.ts). -/
inductive HookEvent
  | agentVerified (resource address humanId : String)
  | agentNotVerified (resource address : String)
  | validationFailed (resource : String) (error : Option String)
  | discountApplied (resource address humanId : String)
  | discountExhausted (resource address humanId : String)
  deriving DecidableEq, Repr

/-- Result of one requestHook invocation: the decision (grantAccess true
versus a void return, the "no decision"), the state after the call, and the
storage calls and events in order. -/
structure RequestOutcome where
  grantAccess : Bool
  state : HookState
  calls : List HookCall
  events : List HookEvent
  deriving DecidableEq, Repr

def AGENTKIT : String := "agentkit"

def PENDING_TTL_MS : Int := 5 * 60 * 1000

/-- TTL sweep over pendingDiscounts run before each insert (hooks.ts). -/
def sweepPending (now : Int) (l : List (String × PendingDiscount)) :
    List (String × PendingDiscount) :=
  l.filter (fun p => decide (now - p.2.createdAt ≤ PENDING_TTL_MS))

/-- Header resolution in requestHook (hooks.ts line 46): getHeader(AGENTKIT)
with a JavaScript-falsy fallback to getHeader(AGENTKIT.toLowerCase()); both
names are the same lowercase string. -/
def effectiveHeader (getHeader : String → Option String) : Option String :=
  match getHeader AGENTKIT with
  | some h => if h = "" then getHeader (strToLower AGENTKIT) else some h
  | none => getHeader (strToLower AGENTKIT)

/-- Nonce-freshness closure the request hook passes to the validator when the
storage implements hasUsedNonce (hooks.ts lines 53-55). -/
def checkNonceOf (cfg : HooksConfig) (st : HookState) : Option (String → Bool) :=
  match cfg.storage with
  | some s => if s.hasUsedNonceSupported then some (fun n => !(hasUsedNonce st n)) else none
  | none => none

/-- Outcome of the early stages of requestHook, before nonce recording. -/
inductive PipelineResult
  | noHeader
  | parseFailed (msg : String)
  | validateThrew (msg : String)
  | validationInvalid (error : Option String)
  | verificationFailed (error : Option String)
  | verified (payload : AgentkitPayload) (addr : String)
  deriving Repr

/-- Stages 1-4 of requestHook (hooks.ts lines 46-67): header lookup, header
parse, message validation, signature verification, with the early returns of
the source. -/
def classifyRequest (env : JsEnv) (cfg : HooksConfig) (getHeader : String → Option String)
    (getUrl : String) (st : HookState) : PipelineResult :=
  match effectiveHeader getHeader with
  | none => .noHeader
  | some header =>
    if header = "" then .noHeader
    else
      match env.parseHeader header with
      | Except.error msg => .parseFailed msg
      | Except.ok payload =>
        match validateAgentkitMessage env payload getUrl none (checkNonceOf cfg st) with
        | Except.error msg => .validateThrew msg
        | Except.ok validation =>
          if validation.valid = false then .validationInvalid validation.error
          else
            let verification := verifyAgentkitSignature env payload
            match verification.valid, verification.address with
            | true, some addr =>
              if addr = "" then .verificationFailed verification.error
              else .verified payload addr
            | true, none => .verificationFailed verification.error
            | false, _ => .verificationFailed verification.error

/-- Stages 5-7 of requestHook (hooks.ts lines 69-110): nonce recording,
AgentBook lookup, and the mode dispatch. A throw from lookupHuman is caught
by the try/catch of the hook and becomes a validation_failed event; state
changes already made (the recorded nonce) are not rolled back. The
`if (!humanId)` guard treats both null and the empty string as falsy, so an
empty identifier also yields agent_not_verified. -/
def afterVerification (env : JsEnv) (cfg : HooksConfig) (path : String)
    (st : HookState) (payload : AgentkitPayload) (addr : String) : RequestOutcome :=
  let rec1 :=
    match cfg.storage with
    | some s =>
      if s.recordNonceSupported then
        (recordNonce st payload.nonce, [HookCall.recordNonceCall payload.nonce])
      else (st, [])
    | none => (st, [])
  let st1 := rec1.1
  let calls1 := rec1.2 ++ [HookCall.lookupHumanCall addr payload.chainId]
  match env.lookupHuman addr payload.chainId with
  | Except.error msg =>
    { grantAccess := false, state := st1, calls := calls1,
      events := [.validationFailed path (some msg)] }
  | Except.ok none =>
    { grantAccess := false, state := st1, calls := calls1,
      events := [.agentNotVerified path addr] }
  | Except.ok (some humanId) =>
    if humanId = "" then
      { grantAccess := false, state := st1, calls := calls1,
        events := [.agentNotVerified path addr] }
    else
    match cfg.mode with
    | .free =>
      { grantAccess := true, state := st1, calls := calls1,
        events := [.agentVerified path addr humanId] }
    | .freeTrial usesOpt =>
      match cfg.storage with
      | none =>
        { grantAccess := false, state := st1, calls := calls1,
          events := [.validationFailed path
            (some "Cannot read properties of undefined (reading getUsageCount)")] }
      | some _ =>
        let uses := usesOpt.getD 1
        let count := getUsageCount st1 path humanId
        let calls2 := calls1 ++ [HookCall.getUsageCountCall path humanId]
        if count < uses then
          { grantAccess := true, state := incrementUsage st1 path humanId,
            calls := calls2 ++ [HookCall.incrementUsageCall path humanId],
            events := [.agentVerified path addr humanId] }
        else
          { grantAccess := false, state := st1, calls := calls2, events := [] }
    | .discount _ _ =>
      let swept := sweepPending env.now st1.pendingDiscounts
      let entry : PendingDiscount := { humanId := humanId, address := addr, createdAt := env.now }
      let st2 := { st1 with pendingDiscounts := setAssoc swept (path ++ ":" ++ addr) entry }
      { grantAccess := false, state := st2, calls := calls1, events := [] }

/-- Embedding of requestHook (hooks.ts). -/
def requestHook (env : JsEnv) (cfg : HooksConfig) (getHeader : String → Option String)
    (getUrl : String) (path : String) (st : HookState) : RequestOutcome :=
  match classifyRequest env cfg getHeader getUrl st with
  | .noHeader => { grantAccess := false, state := st, calls := [], events := [] }
  | .parseFailed msg =>
    { grantAccess := false, state := st, calls := [],
      events := [.validationFailed path (some msg)] }
  | .validateThrew msg =>
    { grantAccess := false, state := st, calls := [],
      events := [.validationFailed path (some msg)] }
  | .validationInvalid e =>
    { grantAccess := false, state := st, calls := [], events := [.validationFailed path e] }
  | .verificationFailed e =>
    { grantAccess := false, state := st, calls := [], events := [.validationFailed path e] }
  | .verified payload addr => afterVerification env cfg path st payload addr

/-- EIP-3009 style authorization of a payment payload (hooks.ts extract
helpers); absent properties are modelled as none. -/
structure Eip3009Auth where
  fromAddr : Option String
  value : Option String
  deriving DecidableEq, Repr

structure Permit2Permitted where
  amount : Option String
  deriving DecidableEq, Repr

structure Permit2Auth where
  fromAddr : Option String
  permitted : Option Permit2Permitted
  deriving DecidableEq, Repr

/-- Shape of paymentPayload.payload as inspected by extractPayer and
extractPaidAmount (hooks.ts): an object with an authorization key, one with a
permit2Authorization key, or anything else. -/
inductive PaymentPayloadModel
  | eip3009 (auth : Eip3009Auth)
  | permit2 (auth : Permit2Auth)
  | other
  deriving DecidableEq, Repr

/-- Embedding of extractPayer (hooks.ts): the from property of whichever
authorization shape is present; an absent property yields a falsy value,
treated like null by the caller. -/
def extractPayer : PaymentPayloadModel → Option String
  | .eip3009 a => a.fromAddr
  | .permit2 a => a.fromAddr
  | .other => none

/-- Model of the JavaScript BigInt constructor on the strings this code
meets: the empty string is 0, an optional minus sign, else decimal digits;
anything else throws, modelled as none. -/
def parseBigInt (s : String) : Option Int :=
  if s = "" then some 0
  else if strStartsWith s "-" then
    match strToNat? (strDrop s 1) with
    | some n => some (-(n : Int))
    | none => none
  else
    match strToNat? s with
    | some n => some (n : Int)
    | none => none

/-- Embedding of extractPaidAmount (hooks.ts): BigInt of authorization.value
or permit2Authorization.permitted.amount; any throw inside the try (missing
property or unparseable BigInt) is caught and returns null. -/
def extractPaidAmount : PaymentPayloadModel → Option Int
  | .eip3009 a =>
    match a.value with
    | some v => parseBigInt v
    | none => none
  | .permit2 a =>
    match a.permitted with
    | some pm =>
      match pm.amount with
      | some v => parseBigInt v
      | none => none
    | none => none
  | .other => none

def UNDERPAYMENT_REASONS : List String :=
  ["invalid_exact_evm_payload_authorization_value",
   "permit2_insufficient_amount",
   "insufficient_funds"]

/-- Embedding of isUnderpaymentError (hooks.ts): the substring before the
first colon of the error message must be a known underpayment reason. -/
def isUnderpaymentError (errorMessage : String) : Bool :=
  UNDERPAYMENT_REASONS.contains ((splitOnColon errorMessage).headD "")

structure RecoveredResult where
  isValid : Bool
  payer : Option String
  deriving DecidableEq, Repr

/-- Result of one verifyFailureHook invocation: the recovery decision, the
requirements.amount after the call (the hook mutates it on recovery), the
state after the call, and the storage calls and events in order. -/
structure VerifyFailureOutcome where
  recovered : Option RecoveredResult
  requirementsAmount : String
  state : HookState
  calls : List HookCall
  events : List HookEvent
  deriving DecidableEq, Repr

/-- Embedding of verifyFailureHook (hooks.ts, discount mode only; percent and
usesOpt are the discount-mode fields the closure reads). The hook has no
try/catch, so new URL on the resource url and BigInt on requirements.amount
throw out of it, modelled as Except.error. -/
def verifyFailureHook (env : JsEnv) (percent : Int) (usesOpt : Option Nat)
    (st : HookState) (resourceUrl : String) (payload : PaymentPayloadModel)
    (requirementsAmount : String) (errorMessage : String) :
    Except String VerifyFailureOutcome :=
  match env.parseURL resourceUrl with
  | none => Except.error ("Invalid URL: " ++ resourceUrl)
  | some parts =>
    let resourcePath := parts.pathname
    let discountKey : Option String :=
      match extractPayer payload with
      | some p => if p = "" then none else some (resourcePath ++ ":" ++ p)
      | none => none
    let pending :=
      match discountKey with
      | some k => lookupAssoc st.pendingDiscounts k
      | none => none
    let st1 :=
      match discountKey with
      | some k => { st with pendingDiscounts := eraseAssoc st.pendingDiscounts k }
      | none => st
    match pending with
    | none =>
      Except.ok { recovered := none, requirementsAmount := requirementsAmount,
                  state := st1, calls := [], events := [] }
    | some pend =>
      if !(isUnderpaymentError errorMessage) then
        Except.ok { recovered := none, requirementsAmount := requirementsAmount,
                    state := st1, calls := [], events := [] }
      else
        let humanId := pend.humanId
        let address := pend.address
        let count := getUsageCount st1 resourcePath humanId
        let calls0 := [HookCall.getUsageCountCall resourcePath humanId]
        let capReached : Bool :=
          match usesOpt with
          | some u => decide (count ≥ u)
          | none => false
        if capReached then
          Except.ok { recovered := none, requirementsAmount := requirementsAmount,
                      state := st1, calls := calls0,
                      events := [.discountExhausted resourcePath address humanId] }
        else
          match parseBigInt requirementsAmount with
          | none => Except.error ("Cannot convert " ++ requirementsAmount ++ " to a BigInt")
          | some requiredAmount =>
            let discountedAmount := Int.tdiv (requiredAmount * (100 - percent)) 100
            match extractPaidAmount payload with
            | none =>
              Except.ok { recovered := none, requirementsAmount := requirementsAmount,
                          state := st1, calls := calls0, events := [] }
            | some paidAmount =>
              if paidAmount < discountedAmount then
                Except.ok { recovered := none, requirementsAmount := requirementsAmount,
                            state := st1, calls := calls0, events := [] }
              else if paidAmount ≥ requiredAmount then
                Except.ok { recovered := none, requirementsAmount := requirementsAmount,
                            state := st1, calls := calls0, events := [] }
              else
                Except.ok { recovered := some { isValid := true, payer := some address },
                            requirementsAmount := toString paidAmount,
                            state := incrementUsage st1 resourcePath humanId,
                            calls := calls0 ++ [HookCall.incrementUsageCall resourcePath humanId],
                            events := [.discountApplied resourcePath address humanId] }

/-- Known AgentBook deployments (agent-book.ts): the table is empty, with a
TODO noting the contract is not yet deployed. -/
def KNOWN_DEPLOYMENTS : List (String × String) := []

/-- Options of createAgentBookVerifier (agent-book.ts); the viem client
override is modelled by its presence. -/
structure AgentBookOptions where
  clientProvided : Bool
  contractAddress : Option String
  rpcUrl : Option String
  deriving DecidableEq, Repr

/-- Embedding of extractNumericChainId (agent-book.ts): regex
eip155:(digits) anchored; failure is a thrown Error. -/
def extractNumericChainId (caip2 : String) : Except String Nat :=
  if strStartsWith caip2 "eip155:" ∧ strDrop caip2 7 ≠ "" ∧ strAllDigits (strDrop caip2 7) then
    match strToNat? (strDrop caip2 7) with
    | some n => Except.ok n
    | none => Except.error ("Unsupported chain format: " ++ caip2)
  else Except.error ("Unsupported chain format: " ++ caip2)

/-- Lowercase hex digit for a value below 16, as produced by BigInt toString
base 16 inside the viem toHex helper. -/
def hexDigitChar (n : Nat) : Char :=
  if n < 10 then Char.ofNat (48 + n) else Char.ofNat (87 + n)

/-- Digits of n in base 16, most significant first, accumulated into acc; the
first argument is fuel, sufficient whenever it exceeds n. -/
def natToHexAux : Nat → Nat → List Char → List Char
  | 0, _, acc => acc
  | fuel + 1, n, acc =>
    if n < 16 then hexDigitChar n :: acc
    else natToHexAux fuel (n / 16) (hexDigitChar (n % 16) :: acc)

/-- Model of viem toHex on a bigint: 0x followed by lowercase base-16 digits. -/
def toHex (n : Nat) : String :=
  String.mk ('0' :: 'x' :: natToHexAux (n + 1) n [])

/-- Embedding of getContractAddress (agent-book.ts): explicit override, else
the built-in deployment table, else a thrown configuration error. -/
def getContractAddress (options : AgentBookOptions) (chainId : String) : Except String String :=
  match options.contractAddress with
  | some a => Except.ok a
  | none =>
    match lookupAssoc KNOWN_DEPLOYMENTS chainId with
    | some a => Except.ok a
    | none =>
      Except.error ("No AgentBook deployment known for network " ++ chainId ++
        ". Pass a contractAddress to createAgentBookVerifier().")

/-- Embedding of getClient (agent-book.ts): a provided client is returned
directly; otherwise the numeric chain id must parse (throw on failure), and
with neither an rpcUrl nor a chain known to the viem registry the transport
creation throws at request time. knownChain abstracts the viem chain
registry. -/
def getClient (options : AgentBookOptions) (knownChain : Nat → Bool) (chainId : String) :
    Except String Unit :=
  if options.clientProvided then Except.ok ()
  else
    match extractNumericChainId chainId with
    | Except.error e => Except.error e
    | Except.ok numericId =>
      match options.rpcUrl with
      | some _ => Except.ok ()
      | none =>
        if knownChain numericId then Except.ok ()
        else Except.error "No URL was provided to the Transport."

/-- Embedding of lookupHuman (agent-book.ts). getContractAddress and getClient
run before the try block, so their throws escape; only the contract read is
guarded, with any error mapped to null; a zero return maps to null and a
nonzero one to its lowercase hex string. readContract abstracts the RPC view
call on the resolved contract address. -/
def lookupHuman (options : AgentBookOptions) (knownChain : Nat → Bool)
    (readContract : String → String → Except String Nat)
    (address chainId : String) : Except String (Option String) :=
  match getContractAddress options chainId with
  | Except.error e => Except.error e
  | Except.ok contractAddress =>
    match getClient options knownChain chainId with
    | Except.error e => Except.error e
    | Except.ok _ =>
      match readContract contractAddress address with
      | Except.error _ => Except.ok none
      | Except.ok humanId =>
        if humanId = 0 then Except.ok none
        else Except.ok (some (toHex humanId))

/-- Decidable check that a string is 0x followed by lowercase hex digits. -/
def isLowerHexString (s : String) : Bool :=
  strStartsWith s "0x" && (s.data.drop 2).all (fun c => "0123456789abcdef".data.contains c)

/-- Concrete URL parts for the test resource https://api.x/data. -/
def testURLData : URLParts :=
  { hostname := "api.x", origin := "https://api.x", pathname := "/data" }

/-- Concrete EVM payload used by witnesses and counterexamples. -/
def testPayloadEvm : AgentkitPayload :=
  { domain := "api.x", address := "0xA", statement := none,
    uri := "https://api.x/data", version := "1", chainId := "eip155:1",
    type := SignatureType.eip191, nonce := "n1", issuedAt := "t0",
    expirationTime := none, notBefore := none, requestId := none,
    resources := none, signatureScheme := none, signature := "0xSIG" }

/-- Concrete environment in which the whole pipeline succeeds for
testPayloadEvm. -/
def testEnv : JsEnv :=
  { parseURL := fun s => if s = "https://api.x/data" then some testURLData else none,
    dateParse := fun s => if s = "t0" then some 0 else none,
    now := 0,
    prepareSIWE := fun _ => "SIWE-MSG",
    verifyEVM := fun _ _ _ => Except.ok true,
    decodeBase58 := fun s =>
      if s = "sig64" then Except.ok (List.replicate 64 0)
      else if s = "pk32" then Except.ok (List.replicate 32 0)
      else if s = "sig63" then Except.ok (List.replicate 63 0)
      else Except.error "Unknown letter",
    ed25519Verify := fun _ _ _ => true,
    parseHeader := fun h =>
      if h = "HDR" then Except.ok testPayloadEvm
      else Except.error "Invalid agentkit header: not valid JSON",
    lookupHuman := fun a c =>
      if a = "0xA" ∧ c = "eip155:1" then Except.ok (some "0xH") else Except.ok none }

/-- Empty hook state. -/
def emptyState : HookState := { usage := [], nonces := [], pendingDiscounts := [] }

/-- Adapter presenting the test header under the lowercase name. -/
def adapterLower : String → Option String :=
  fun name => if name = "agentkit" then some "HDR" else none

/-- Case-sensitive adapter presenting the test header only under the
capitalized name Agentkit. -/
def adapterCapitalized : String → Option String :=
  fun name => if name = "Agentkit" then some "HDR" else none

/-- Line list of the SIWS message as the amended specification reads: header
line, the address, a blank line, the optional statement block, then the
key-value lines with the optional tail entries and the resources list. -/
def siwsMessageLinesSpec (info : CompleteAgentkitInfo) (address : String) : List String :=
  [info.domain ++ " wants you to sign in with your Solana account:", address, ""]
  ++ (match truthyStr info.statement with
      | some s => [s, ""]
      | none => [])
  ++ ["URI: " ++ info.uri,
      "Version: " ++ info.version,
      "Chain ID: " ++ extractSolanaChainReference info.chainId,
      "Nonce: " ++ info.nonce,
      "Issued At: " ++ info.issuedAt]
  ++ (match truthyStr info.expirationTime with
      | some e => ["Expiration Time: " ++ e]
      | none => [])
  ++ (match truthyStr info.notBefore with
      | some nb => ["Not Before: " ++ nb]
      | none => [])
  ++ (match truthyStr info.requestId with
      | some r => ["Request ID: " ++ r]
      | none => [])
  ++ (match info.resources with
      | some rs =>
        if rs.length > 0 then "Resources:" :: rs.map (fun r => "- " ++ r) else []
      | none => [])

/-- Concrete info record used by the SIWS counterexample. -/
def testInfoSiws : CompleteAgentkitInfo :=
  { domain := "api.x", uri := "https://api.x/data", statement := none, version := "1",
    chainId := "solana:MAIN", type := SignatureType.ed25519, nonce := "n1", issuedAt := "t0",
    expirationTime := none, notBefore := none, requestId := none, resources := none }

/-- C8 counterexample: formatSIWSMessage puts the address on the second line
and the blank line third, not a blank line second and the address third as
the claim orders them. -/
theorem C8_counterexample :
    formatSIWSMessage testInfoSiws "SOLADDR" =
      String.intercalate "\n"
        ["api.x wants you to sign in with your Solana account:", "SOLADDR", "",
         "URI: https://api.x/data", "Version: 1", "Chain ID: MAIN", "Nonce: n1",
         "Issued At: t0"] ∧
    formatSIWSMessage testInfoSiws "SOLADDR" ≠
      String.intercalate "\n"
        ["api.x wants you to sign in with your Solana account:", "", "SOLADDR",
         "URI: https://api.x/data", "Version: 1", "Chain ID: MAIN", "Nonce: n1",
         "Issued At: t0"] := by
  constructor
  · rfl
  · decide

/-- C8 amended: for every info record and address, the SIWS message is the
newline join of: the header line, the address, a blank line, the optional
statement block, then the key-value lines URI, Version, Chain ID (reference
part of chainId), Nonce, Issued At, optional Expiration Time, Not Before,
Request ID, and the Resources list. -/
theorem C8_siws_format_amended (info : CompleteAgentkitInfo) (address : String) :
    formatSIWSMessage info address =
      String.intercalate "\n" (siwsMessageLinesSpec info address) := by
  unfold formatSIWSMessage siwsMessageLinesSpec
  cases truthyStr info.statement <;>
  cases truthyStr info.expirationTime <;>
  cases truthyStr info.notBefore <;>
  cases truthyStr info.requestId <;>
  rcases info.resources with _ | rs <;>
  simp [List.append_assoc]
  all_goals by_cases hr : 0 < rs.length <;> simp [hr]

/-- Concrete payload whose type does not match its chainId namespace. -/
def payloadTypeMismatch : AgentkitPayload :=
  { testPayloadEvm with type := SignatureType.ed25519 }

/-- C7 counterexample: a payload with chainId eip155:1 but type ed25519
passes validation and signature verification unchanged, so the pipeline
accepts a payload whose type does not match its chainId namespace. -/
theorem C7_counterexample :
    payloadTypeMismatch.chainId = "eip155:1" ∧
    payloadTypeMismatch.type = SignatureType.ed25519 ∧
    validateAgentkitMessage testEnv payloadTypeMismatch "https://api.x/data" none none =
      Except.ok { valid := true, error := none } ∧
    verifyAgentkitSignature testEnv payloadTypeMismatch =
      { valid := true, address := some "0xA", error := none } :=
  ⟨rfl, rfl, rfl, rfl⟩

/-- C7 amended: the pipeline never reads the type field; validation and
verification results are unchanged under any replacement of type, so a
mismatched type is accepted exactly when the matching one is, and no
rejection on a type/namespace mismatch exists. -/
theorem C7_type_irrelevance (env : JsEnv) (payload : AgentkitPayload) (t : SignatureType)
    (uri : String) (maxAge : Option Int) (checkNonce : Option (String → Bool)) :
    verifyAgentkitSignature env { payload with type := t } =
      verifyAgentkitSignature env payload ∧
    validateAgentkitMessage env { payload with type := t } uri maxAge checkNonce =
      validateAgentkitMessage env payload uri maxAge checkNonce :=
  ⟨rfl, rfl⟩

/-- Every run of the final nonce step returns a structured result. -/
theorem validateNonce_ok (m : AgentkitPayload) (cn : Option (String → Bool)) :
    ∃ r, validateNonce m cn = Except.ok r := by
  unfold validateNonce
  repeat' split
  all_goals exact ⟨_, rfl⟩

/-- Every run of the notBefore step returns a structured result. -/
theorem validateNotBefore_ok (env : JsEnv) (m : AgentkitPayload)
    (cn : Option (String → Bool)) :
    ∃ r, validateNotBefore env m cn = Except.ok r := by
  unfold validateNotBefore
  repeat' split
  all_goals first
    | exact ⟨_, rfl⟩
    | exact validateNonce_ok m cn

/-- C6 counterexample: an expected resource URI that does not parse as a URL
makes validateAgentkitMessage throw (the new URL call sits outside any
try/catch), so it does not return a structured result on every input. -/
theorem C6_counterexample :
    validateAgentkitMessage testEnv testPayloadEvm "not a url" none none =
      Except.error "Invalid URL: not a url" := rfl

/-- C6 amended: whenever the expected resource URI parses as a URL, the
validator returns a structured result and never throws, for every payload,
max age and nonce callback (an unparseable payload uri yields an invalid
result, not a throw). -/
theorem C6_validate_amended (env : JsEnv) (message : AgentkitPayload)
    (expectedResourceUri : String) (maxAge : Option Int)
    (checkNonce : Option (String → Bool)) (parts : URLParts)
    (h : env.parseURL expectedResourceUri = some parts) :
    ∃ r, validateAgentkitMessage env message expectedResourceUri maxAge checkNonce =
      Except.ok r := by
  unfold validateAgentkitMessage
  rw [h]
  dsimp only
  repeat' split
  all_goals first
    | exact ⟨_, rfl⟩
    | exact validateNotBefore_ok env message checkNonce

/-- C6 witness: the amended theorem applied to the concrete test fixture
returns a structured result, which is the passing one. -/
theorem C6_witness :
    validateAgentkitMessage testEnv testPayloadEvm "https://api.x/data" none none =
      Except.ok { valid := true, error := none } := by
  obtain ⟨r, hr⟩ := C6_validate_amended testEnv testPayloadEvm "https://api.x/data" none none
    testURLData rfl
  have h2 : Except.ok r =
      (Except.ok { valid := true, error := none } :
        Except String AgentkitValidationResult) := hr.symm.trans (by rfl)
  injection h2 with h3
  rw [h3] at hr
  exact hr

/-- C5: verifyAgentkitSignature routes on the chainId prefix: an eip155
prefix goes to the EVM path (whose escaped throws the outer catch turns into
a failing result), a solana prefix to the Ed25519 path, and any other
namespace yields a failing result whose error message begins with
Unsupported chain namespace followed by the chainId; on the Solana path a
decoded signature of length other than 64 bytes, or a decoded public key of
length other than 32 bytes, yields the specific length error. -/
theorem C5_namespace_routing (env : JsEnv) (payload : AgentkitPayload) :
    (strStartsWith payload.chainId "eip155:" = true →
      verifyAgentkitSignature env payload =
        match verifyEVMPayload env payload with
        | Except.ok r => r
        | Except.error msg => { valid := false, address := none, error := some msg }) ∧
    (strStartsWith payload.chainId "eip155:" = false →
      strStartsWith payload.chainId "solana:" = true →
      verifyAgentkitSignature env payload = verifySolanaPayload env payload) ∧
    (strStartsWith payload.chainId "eip155:" = false →
      strStartsWith payload.chainId "solana:" = false →
      verifyAgentkitSignature env payload =
        { valid := false, address := none,
          error := some ("Unsupported chain namespace: " ++ payload.chainId ++
            ". Supported: eip155:* (EVM), solana:* (Solana)") }) ∧
    (∀ sig pk,
      strStartsWith payload.chainId "eip155:" = false →
      strStartsWith payload.chainId "solana:" = true →
      env.decodeBase58 payload.signature = Except.ok sig →
      env.decodeBase58 payload.address = Except.ok pk →
      sig.length ≠ 64 →
      verifyAgentkitSignature env payload =
        { valid := false, address := none,
          error := some ("Invalid signature length: expected 64 bytes, got " ++
            toString sig.length) }) ∧
    (∀ sig pk,
      strStartsWith payload.chainId "eip155:" = false →
      strStartsWith payload.chainId "solana:" = true →
      env.decodeBase58 payload.signature = Except.ok sig →
      env.decodeBase58 payload.address = Except.ok pk →
      sig.length = 64 → pk.length ≠ 32 →
      verifyAgentkitSignature env payload =
        { valid := false, address := none,
          error := some ("Invalid public key length: expected 32 bytes, got " ++
            toString pk.length) }) := by
  refine ⟨?_, ?_, ?_, ?_, ?_⟩
  · intro h1
    simp [verifyAgentkitSignature, h1]
  · intro h1 h2
    simp [verifyAgentkitSignature, h1, h2]
  · intro h1 h2
    simp [verifyAgentkitSignature, h1, h2, unsupportedNamespaceError]
  · intro sig pk h1 h2 hs hp hlen
    simp [verifyAgentkitSignature, h1, h2, verifySolanaPayload, hs, hp, hlen]
  · intro sig pk h1 h2 hs hp hlen hpk
    simp [verifyAgentkitSignature, h1, h2, verifySolanaPayload, hs, hp, hlen, hpk]

/-- Payload with an unsupported chain namespace. -/
def payloadBadNs : AgentkitPayload := { testPayloadEvm with chainId := "cosmos:hub" }

/-- Solana payload whose signature decodes to 63 bytes. -/
def payloadSol63 : AgentkitPayload :=
  { testPayloadEvm with
      chainId := "solana:X", type := SignatureType.ed25519,
      signature := "sig63", address := "pk32" }

/-- C5 witness: the routing theorem applied at an unsupported-namespace
payload and at a Solana payload with a 63-byte signature. -/
theorem C5_witness :
    verifyAgentkitSignature testEnv payloadBadNs =
      { valid := false, address := none,
        error := some "Unsupported chain namespace: cosmos:hub. Supported: eip155:* (EVM), solana:* (Solana)" } ∧
    verifyAgentkitSignature testEnv payloadSol63 =
      { valid := false, address := none,
        error := some "Invalid signature length: expected 64 bytes, got 63" } := by
  constructor
  · exact ((C5_namespace_routing testEnv payloadBadNs).2.2.1 rfl rfl).trans (by rfl)
  · exact (((C5_namespace_routing testEnv payloadSol63).2.2.2.1
      (List.replicate 63 0) (List.replicate 32 0) rfl rfl (by rfl) (by rfl)
      (by decide))).trans (by rfl)

/-- Every hex digit character below 16 lies in the lowercase hex alphabet. -/
theorem hexDigitChar_mem (m : Nat) (h : m < 16) :
    "0123456789abcdef".data.contains (hexDigitChar m) = true := by
  interval_cases m <;> decide

/-- The hex digit expansion only produces lowercase hex characters. -/
theorem natToHexAux_all (fuel : Nat) : ∀ (n : Nat) (acc : List Char),
    acc.all (fun c => "0123456789abcdef".data.contains c) = true →
    (natToHexAux fuel n acc).all (fun c => "0123456789abcdef".data.contains c) = true := by
  induction fuel with
  | zero => intro n acc hacc; exact hacc
  | succ fuel ih =>
    intro n acc hacc
    unfold natToHexAux
    by_cases h : n < 16
    · rw [if_pos h]
      simp only [List.all_cons]
      rw [hexDigitChar_mem n h, hacc]
      rfl
    · rw [if_neg h]
      refine ih (n / 16) _ ?_
      simp only [List.all_cons]
      rw [hexDigitChar_mem (n % 16) (Nat.mod_lt _ (by omega)), hacc]
      rfl

/-- toHex always yields 0x followed by lowercase hex digits. -/
theorem toHex_isLowerHex (n : Nat) : isLowerHexString (toHex n) = true := by
  rw [isLowerHexString, Bool.and_eq_true]
  refine ⟨?_, natToHexAux_all (n + 1) n [] rfl⟩
  show (("0x".data).isPrefixOf ('0' :: 'x' :: natToHexAux (n + 1) n [])) = true
  simp [List.isPrefixOf]

/-- Options of a verifier constructed with no overrides at all. -/
def defaultBookOptions : AgentBookOptions :=
  { clientProvided := false, contractAddress := none, rpcUrl := none }

/-- Chain registry oracle that knows every numeric chain id. -/
def anyChainKnown : Nat → Bool := fun _ => true

/-- RPC oracle whose contract read always returns 5. -/
def readContractOk5 : String → String → Except String Nat := fun _ _ => Except.ok 5

/-- C4 counterexample: with no contractAddress override and the (empty)
built-in deployment table, lookupHuman throws the configuration error at
request time instead of returning null, even though the RPC itself would
answer, contradicting the claim that every failure is mapped to null and
never propagated. -/
theorem C4_counterexample :
    lookupHuman defaultBookOptions anyChainKnown readContractOk5 "0xA" "eip155:8453" =
      Except.error ("No AgentBook deployment known for network eip155:8453. " ++
        "Pass a contractAddress to createAgentBookVerifier().") := rfl

/-- C4 amended: once the contract address and client resolve, lookupHuman
never throws: an RPC error or revert maps to null, a zero return maps to
null, and a nonzero return yields the identifier as a lowercase hex string;
but an unconfigured chain (no override, and the built-in deployment table is
empty) makes lookupHuman throw a configuration error at request time. -/
theorem C4_lookupHuman_amended (options : AgentBookOptions) (knownChain : Nat → Bool)
    (readContract : String → String → Except String Nat) (address chainId : String) :
    (∀ ca, getContractAddress options chainId = Except.ok ca →
      getClient options knownChain chainId = Except.ok () →
      ((∀ e, readContract ca address = Except.error e →
          lookupHuman options knownChain readContract address chainId = Except.ok none) ∧
       (readContract ca address = Except.ok 0 →
          lookupHuman options knownChain readContract address chainId = Except.ok none) ∧
       (∀ n, readContract ca address = Except.ok n → n ≠ 0 →
          lookupHuman options knownChain readContract address chainId =
            Except.ok (some (toHex n)) ∧ isLowerHexString (toHex n) = true))) ∧
    (options.contractAddress = none →
      ∃ e, lookupHuman options knownChain readContract address chainId = Except.error e) := by
  constructor
  · intro ca hca hcl
    refine ⟨?_, ?_, ?_⟩
    · intro e hre
      simp [lookupHuman, hca, hcl, hre]
    · intro hr0
      simp [lookupHuman, hca, hcl, hr0]
    · intro n hrn hn
      exact ⟨by simp [lookupHuman, hca, hcl, hrn, hn], toHex_isLowerHex n⟩
  · intro hnone
    refine ⟨"No AgentBook deployment known for network " ++ chainId ++
      ". Pass a contractAddress to createAgentBookVerifier().", ?_⟩
    simp [lookupHuman, getContractAddress, hnone, KNOWN_DEPLOYMENTS, lookupAssoc]

/-- Options with a provided viem client and an explicit contract address. -/
def clientBookOptions : AgentBookOptions :=
  { clientProvided := true, contractAddress := some "0xC", rpcUrl := none }

/-- C4 witness: the amended theorem applied to a configured verifier whose
contract read returns 5, yielding the lowercase hex identifier 0x5. -/
theorem C4_witness :
    lookupHuman clientBookOptions anyChainKnown readContractOk5 "0xA" "eip155:1" =
      Except.ok (some (toHex 5)) ∧ isLowerHexString (toHex 5) = true :=
  ((C4_lookupHuman_amended clientBookOptions anyChainKnown readContractOk5 "0xA"
    "eip155:1").1 "0xC" rfl rfl).2.2 5 rfl (by decide)

/-- C9 counterexample: with a case-sensitive adapter that stores the header
under the name Agentkit, the hook (which asks the adapter only for the
lowercase name) sees no header and returns no decision, while the identical
request presented under the lowercase name is granted; so the hook is not
case-insensitive by itself. -/
theorem C9_counterexample :
    (requestHook testEnv { mode := AgentkitMode.free, storage := none } adapterLower
      "https://api.x/data" "/data" emptyState).grantAccess = true ∧
    (requestHook testEnv { mode := AgentkitMode.free, storage := none } adapterCapitalized
      "https://api.x/data" "/data" emptyState).grantAccess = false ∧
    requestHook testEnv { mode := AgentkitMode.free, storage := none } adapterLower
      "https://api.x/data" "/data" emptyState ≠
    requestHook testEnv { mode := AgentkitMode.free, storage := none } adapterCapitalized
      "https://api.x/data" "/data" emptyState := by
  refine ⟨rfl, rfl, ?_⟩
  decide

/-- C9 amended: the request hook reads the header from the adapter only under
the single lowercase name agentkit (both of its lookups use that same name),
so two adapters agreeing on that name produce identical outcomes; a request
carrying the header under the name Agentkit is processed identically exactly
when the adapter itself resolves Agentkit like agentkit. -/
theorem C9_header_lookup_amended (env : JsEnv) (cfg : HooksConfig)
    (g1 g2 : String → Option String) (getUrl path : String) (st : HookState)
    (h : g1 "agentkit" = g2 "agentkit") :
    requestHook env cfg g1 getUrl path st = requestHook env cfg g2 getUrl path st := by
  unfold requestHook classifyRequest effectiveHeader
  rw [show strToLower AGENTKIT = "agentkit" from rfl, show AGENTKIT = "agentkit" from rfl, h]

/-- Adapter agreeing with adapterLower on the lowercase name but not
elsewhere. -/
def adapterLowerNoisy : String → Option String :=
  fun name => if name = "agentkit" then some "HDR" else some "unrelated"

/-- C9 witness: the amended theorem applied to two concrete adapters that
agree on the lowercase name. -/
theorem C9_witness :
    requestHook testEnv { mode := AgentkitMode.free, storage := none } adapterLower
      "https://api.x/data" "/data" emptyState =
    requestHook testEnv { mode := AgentkitMode.free, storage := none } adapterLowerNoisy
      "https://api.x/data" "/data" emptyState :=
  C9_header_lookup_amended testEnv { mode := AgentkitMode.free, storage := none }
    adapterLower adapterLowerNoisy "https://api.x/data" "/data" emptyState rfl

/-- The early pipeline classifies as verified exactly under a resolved
nonempty header, a successful parse, a passing validation, and a successful
verification carrying a nonempty address. -/
theorem classifyRequest_verified (env : JsEnv) (cfg : HooksConfig)
    (getHeader : String → Option String) (getUrl : String) (st : HookState)
    (header : String) (payload : AgentkitPayload) (r : AgentkitValidationResult) (addr : String)
    (hh : effectiveHeader getHeader = some header) (hne : ¬(header = ""))
    (hp : env.parseHeader header = Except.ok payload)
    (hv : validateAgentkitMessage env payload getUrl none (checkNonceOf cfg st) = Except.ok r)
    (hrv : r.valid = true)
    (hsv : (verifyAgentkitSignature env payload).valid = true)
    (hsa : (verifyAgentkitSignature env payload).address = some addr)
    (hane : ¬(addr = "")) :
    classifyRequest env cfg getHeader getUrl st = PipelineResult.verified payload addr := by
  simp only [classifyRequest, hh, hp, hv, hrv, hsv, hsa]
  rw [if_neg hne]
  simp [hrv, hsv, hsa, hane]

/-- C10: with mode free, createAgentkitHooks succeeds without a storage
instance; the request hook never issues getUsageCount or incrementUsage calls
and leaves the usage map unchanged on every input, whatever storage is
supplied (storage is touched only through the optional nonce methods); and a
verified registered agent with a nonempty human identifier is granted
access. -/
theorem C10_free_mode_frame :
    createAgentkitHooks { mode := some AgentkitMode.free, storage := none } =
      Except.ok { mode := AgentkitMode.free, storage := none } ∧
    (∀ (env : JsEnv) (stCfg : Option StorageConfig) (getHeader : String → Option String)
        (getUrl path : String) (st : HookState) (ep hid : String),
      (requestHook env { mode := AgentkitMode.free, storage := stCfg }
        getHeader getUrl path st).state.usage = st.usage ∧
      HookCall.getUsageCountCall ep hid ∉
        (requestHook env { mode := AgentkitMode.free, storage := stCfg }
          getHeader getUrl path st).calls ∧
      HookCall.incrementUsageCall ep hid ∉
        (requestHook env { mode := AgentkitMode.free, storage := stCfg }
          getHeader getUrl path st).calls) ∧
    (∀ (env : JsEnv) (stCfg : Option StorageConfig) (getHeader : String → Option String)
        (getUrl path : String) (st : HookState) (header : String)
        (payload : AgentkitPayload) (r : AgentkitValidationResult) (addr humanId : String),
      effectiveHeader getHeader = some header → ¬(header = "") →
      env.parseHeader header = Except.ok payload →
      validateAgentkitMessage env payload getUrl none
        (checkNonceOf { mode := AgentkitMode.free, storage := stCfg } st) = Except.ok r →
      r.valid = true →
      (verifyAgentkitSignature env payload).valid = true →
      (verifyAgentkitSignature env payload).address = some addr → ¬(addr = "") →
      env.lookupHuman addr payload.chainId = Except.ok (some humanId) →
      ¬(humanId = "") →
      (requestHook env { mode := AgentkitMode.free, storage := stCfg }
        getHeader getUrl path st).grantAccess = true) := by
  refine ⟨rfl, ?_, ?_⟩
  · intro env stCfg getHeader getUrl path st ep hid
    cases hc : classifyRequest env { mode := AgentkitMode.free, storage := stCfg }
        getHeader getUrl st with
    | noHeader => simp [requestHook, hc]
    | parseFailed msg => simp [requestHook, hc]
    | validateThrew msg => simp [requestHook, hc]
    | validationInvalid e => simp [requestHook, hc]
    | verificationFailed e => simp [requestHook, hc]
    | verified payload addr =>
      simp only [requestHook, hc]
      unfold afterVerification
      cases hl : env.lookupHuman addr payload.chainId with
      | error msg =>
        rcases stCfg with _ | s
        · simp [hl]
        · by_cases hr : s.recordNonceSupported = true <;> simp [hl, hr, recordNonce]
      | ok o =>
        cases o with
        | none =>
          rcases stCfg with _ | s
          · simp [hl]
          · by_cases hr : s.recordNonceSupported = true <;> simp [hl, hr, recordNonce]
        | some humanId =>
          rcases stCfg with _ | s
          · by_cases hhid : humanId = "" <;> simp [hl, hhid]
          · by_cases hr : s.recordNonceSupported = true <;>
            by_cases hhid : humanId = "" <;> simp [hl, hr, hhid, recordNonce]
  · intro env stCfg getHeader getUrl path st header payload r addr humanId
      hh hne hp hv hrv hsv hsa hane hl hnid
    have hc := classifyRequest_verified env { mode := AgentkitMode.free, storage := stCfg }
      getHeader getUrl st header payload r addr hh hne hp hv hrv hsv hsa hane
    simp only [requestHook, hc]
    unfold afterVerification
    rcases stCfg with _ | s
    · simp [hl, hnid]
    · by_cases hr : s.recordNonceSupported = true <;> simp [hl, hr, hnid]

/-- C10 witness: the frame theorem applied to the concrete free-mode fixture,
where the verified registered agent is granted access with the usage map
untouched. -/
theorem C10_witness :
    createAgentkitHooks { mode := some AgentkitMode.free, storage := none } =
      Except.ok { mode := AgentkitMode.free, storage := none } ∧
    (requestHook testEnv { mode := AgentkitMode.free, storage := none } adapterLower
      "https://api.x/data" "/data" emptyState).state.usage = emptyState.usage ∧
    (requestHook testEnv { mode := AgentkitMode.free, storage := none } adapterLower
      "https://api.x/data" "/data" emptyState).grantAccess = true :=
  ⟨C10_free_mode_frame.1,
   (C10_free_mode_frame.2.1 testEnv none adapterLower "https://api.x/data" "/data"
     emptyState "/data" "0xH").1,
   C10_free_mode_frame.2.2 testEnv none adapterLower "https://api.x/data" "/data"
     emptyState "HDR" testPayloadEvm { valid := true, error := none } "0xA" "0xH"
     rfl (by decide) rfl rfl rfl rfl rfl (by decide) rfl (by decide)⟩

/-- Map.set followed by Map.get on the same key yields the stored value. -/
theorem lookupAssoc_setAssoc {α : Type} (l : List (String × α)) (k : String) (v : α) :
    lookupAssoc (setAssoc l k v) k = some v := by
  induction l with
  | nil => simp [setAssoc, lookupAssoc]
  | cons p rest ih =>
    obtain ⟨k1, v1⟩ := p
    by_cases h : k1 = k
    · simp [setAssoc, h, lookupAssoc]
    · simp [setAssoc, h, lookupAssoc, ih]

/-- Incrementing the usage counter raises the read count by one. -/
theorem getUsageCount_incrementUsage (st : HookState) (ep hid : String) :
    getUsageCount (incrementUsage st ep hid) ep hid = getUsageCount st ep hid + 1 := by
  unfold getUsageCount incrementUsage
  simp [lookupAssoc_setAssoc]

/-- Recording a nonce does not change any usage counter. -/
theorem getUsageCount_recordNonce (st : HookState) (n ep hid : String) :
    getUsageCount (recordNonce st n) ep hid = getUsageCount st ep hid := rfl

/-- Replacing the nonce set does not change any usage counter. -/
theorem getUsageCount_set_nonces (st : HookState) (ns : List String) (ep hid : String) :
    getUsageCount { st with nonces := ns } ep hid = getUsageCount st ep hid := rfl

/-- C2: in free-trial mode with limit N and a storage instance, a request by
a verified registered agent (nonempty human identifier, as the source treats
a falsy identifier as unregistered) whose counter on (path, humanId) reads below N
grants access and increments that counter by one; and when the counter reads
exactly N (after exactly N free grants for that human on that endpoint), the
request returns no decision and leaves the usage map unchanged — the counter
is keyed by the human identifier, so any wallet address resolving to that
human behaves identically. -/
theorem C2_free_trial_counter (env : JsEnv) (s : StorageConfig) (N : Nat)
    (getHeader : String → Option String) (getUrl path : String) (st : HookState)
    (header : String) (payload : AgentkitPayload) (r : AgentkitValidationResult)
    (addr humanId : String)
    (hh : effectiveHeader getHeader = some header) (hne : ¬(header = ""))
    (hp : env.parseHeader header = Except.ok payload)
    (hv : validateAgentkitMessage env payload getUrl none
      (checkNonceOf { mode := AgentkitMode.freeTrial (some N), storage := some s } st) =
        Except.ok r)
    (hrv : r.valid = true)
    (hsv : (verifyAgentkitSignature env payload).valid = true)
    (hsa : (verifyAgentkitSignature env payload).address = some addr) (hane : ¬(addr = ""))
    (hl : env.lookupHuman addr payload.chainId = Except.ok (some humanId))
    (hnid : ¬(humanId = "")) :
    (getUsageCount st path humanId < N →
      (requestHook env { mode := AgentkitMode.freeTrial (some N), storage := some s }
        getHeader getUrl path st).grantAccess = true ∧
      getUsageCount (requestHook env
        { mode := AgentkitMode.freeTrial (some N), storage := some s }
        getHeader getUrl path st).state path humanId =
          getUsageCount st path humanId + 1) ∧
    (getUsageCount st path humanId = N →
      (requestHook env { mode := AgentkitMode.freeTrial (some N), storage := some s }
        getHeader getUrl path st).grantAccess = false ∧
      (requestHook env { mode := AgentkitMode.freeTrial (some N), storage := some s }
        getHeader getUrl path st).state.usage = st.usage) := by
  have hc := classifyRequest_verified env
    { mode := AgentkitMode.freeTrial (some N), storage := some s }
    getHeader getUrl st header payload r addr hh hne hp hv hrv hsv hsa hane
  constructor
  · intro hlt
    by_cases hr : s.recordNonceSupported = true
    · simp [requestHook, hc, afterVerification, hl, hr, hnid, getUsageCount_recordNonce,
        getUsageCount_set_nonces, hlt, getUsageCount_incrementUsage]
    · simp [requestHook, hc, afterVerification, hl, hr, hnid, hlt,
        getUsageCount_incrementUsage]
  · intro heq
    by_cases hr : s.recordNonceSupported = true
    · simp [requestHook, hc, afterVerification, hl, hr, hnid, getUsageCount_recordNonce,
        getUsageCount_set_nonces, heq, recordNonce, Nat.lt_irrefl]
    · simp [requestHook, hc, afterVerification, hl, hr, hnid, heq, Nat.lt_irrefl]

/-- Storage flags with no optional nonce methods. -/
def flagsNoNonce : StorageConfig :=
  { hasUsedNonceSupported := false, recordNonceSupported := false }

/-- State whose counter for the test human on the test endpoint reads 2. -/
def stTwoUses : HookState :=
  { usage := [("/data:0xH", 2)], nonces := [], pendingDiscounts := [] }

/-- C2 witness: with limit 2, the first request from the empty state grants
and leaves the counter at 1; with the counter already at 2, the request
returns no decision and the usage map is unchanged. -/
theorem C2_witness :
    ((requestHook testEnv { mode := AgentkitMode.freeTrial (some 2), storage := some flagsNoNonce }
        adapterLower "https://api.x/data" "/data" emptyState).grantAccess = true ∧
      getUsageCount (requestHook testEnv
        { mode := AgentkitMode.freeTrial (some 2), storage := some flagsNoNonce }
        adapterLower "https://api.x/data" "/data" emptyState).state "/data" "0xH" = 1) ∧
    ((requestHook testEnv { mode := AgentkitMode.freeTrial (some 2), storage := some flagsNoNonce }
        adapterLower "https://api.x/data" "/data" stTwoUses).grantAccess = false ∧
      (requestHook testEnv { mode := AgentkitMode.freeTrial (some 2), storage := some flagsNoNonce }
        adapterLower "https://api.x/data" "/data" stTwoUses).state.usage = stTwoUses.usage) := by
  constructor
  · have h := (C2_free_trial_counter testEnv flagsNoNonce 2 adapterLower "https://api.x/data"
      "/data" emptyState "HDR" testPayloadEvm { valid := true, error := none } "0xA" "0xH"
      rfl (by decide) rfl rfl rfl rfl rfl (by decide) rfl (by decide)).1 (by decide)
    exact ⟨h.1, h.2.trans (by rfl)⟩
  · exact (C2_free_trial_counter testEnv flagsNoNonce 2 adapterLower "https://api.x/data"
      "/data" stTwoUses "HDR" testPayloadEvm { valid := true, error := none } "0xA" "0xH"
      rfl (by decide) rfl rfl rfl rfl rfl (by decide) rfl (by decide)).2 (by decide)

/-- A returned okInvalid result is never valid. -/
theorem okInvalid_not_valid {msg : String} {r : AgentkitValidationResult} {C : Prop}
    (h : okInvalid msg = Except.ok r) (hv : r.valid = true) : C := by
  rw [okInvalid] at h
  cases h
  simp at hv

/-- A passed nonce check is a precondition of a valid result of the final
validation step. -/
theorem validateNonce_valid (m : AgentkitPayload) (f : String → Bool)
    (r : AgentkitValidationResult) (h : validateNonce m (some f) = Except.ok r)
    (hv : r.valid = true) : f m.nonce = true := by
  simp only [validateNonce] at h
  split at h
  · assumption
  · exact okInvalid_not_valid h hv

/-- A passed nonce check is a precondition of a valid result of the notBefore
step. -/
theorem validateNotBefore_valid (env : JsEnv) (m : AgentkitPayload) (f : String → Bool)
    (r : AgentkitValidationResult) (h : validateNotBefore env m (some f) = Except.ok r)
    (hv : r.valid = true) : f m.nonce = true := by
  unfold validateNotBefore at h
  split at h
  · split at h
    · exact okInvalid_not_valid h hv
    · split at h
      · exact okInvalid_not_valid h hv
      · exact validateNonce_valid m f r h hv
  · exact validateNonce_valid m f r h hv

/-- A valid validation result implies the supplied nonce check accepted the
nonce of the message. -/
theorem validate_nonce_required (env : JsEnv) (m : AgentkitPayload) (uri : String)
    (ma : Option Int) (f : String → Bool) (r : AgentkitValidationResult)
    (h : validateAgentkitMessage env m uri ma (some f) = Except.ok r)
    (hv : r.valid = true) : f m.nonce = true := by
  unfold validateAgentkitMessage at h
  split at h
  · cases h
  · dsimp only at h
    split at h
    · exact okInvalid_not_valid h hv
    · split at h
      · exact okInvalid_not_valid h hv
      · split at h
        · exact okInvalid_not_valid h hv
        · split at h
          · exact okInvalid_not_valid h hv
          · split at h
            · exact okInvalid_not_valid h hv
            · split at h
              · exact okInvalid_not_valid h hv
              · split at h
                · split at h
                  · exact okInvalid_not_valid h hv
                  · split at h
                    · exact okInvalid_not_valid h hv
                    · exact validateNotBefore_valid env m f r h hv
                · exact validateNotBefore_valid env m f r h hv

/-- Shape of the post-verification stage when nonce recording is supported:
the call trace starts with the recordNonce call, immediately followed by the
lookupHuman call, and the tail holds only usage calls; the nonce is appended
to the nonce set whatever the mode and lookup outcome. -/
theorem afterVerification_shape (env : JsEnv) (s : StorageConfig) (mode : AgentkitMode)
    (path : String) (st : HookState) (payload : AgentkitPayload) (addr : String)
    (hrec : s.recordNonceSupported = true) :
    ∃ tail,
      (afterVerification env { mode := mode, storage := some s } path st payload addr).calls =
        HookCall.recordNonceCall payload.nonce ::
          HookCall.lookupHumanCall addr payload.chainId :: tail ∧
      (∀ n, HookCall.recordNonceCall n ∉ tail) ∧
      (∀ a c, HookCall.lookupHumanCall a c ∉ tail) ∧
      (afterVerification env { mode := mode, storage := some s }
        path st payload addr).state.nonces = st.nonces ++ [payload.nonce] := by
  unfold afterVerification
  cases hl : env.lookupHuman addr payload.chainId with
  | error msg =>
    exact ⟨[], by simp [hl, hrec, recordNonce], by simp, by simp,
      by simp [hl, hrec, recordNonce]⟩
  | ok o =>
    cases o with
    | none =>
      exact ⟨[], by simp [hl, hrec, recordNonce], by simp, by simp,
        by simp [hl, hrec, recordNonce]⟩
    | some humanId =>
      by_cases hhid : humanId = ""
      · exact ⟨[], by simp [hl, hrec, recordNonce, hhid], by simp, by simp,
          by simp [hl, hrec, recordNonce, hhid]⟩
      · cases mode with
        | free =>
          exact ⟨[], by simp [hl, hrec, recordNonce, hhid], by simp, by simp,
            by simp [hl, hrec, recordNonce, hhid]⟩
        | freeTrial usesOpt =>
          by_cases hcnt : getUsageCount st path humanId < usesOpt.getD 1
          · exact ⟨[HookCall.getUsageCountCall path humanId,
              HookCall.incrementUsageCall path humanId],
              by simp [hl, hrec, recordNonce, getUsageCount_set_nonces, hcnt, hhid],
              by simp, by simp,
              by simp [hl, hrec, recordNonce, getUsageCount_set_nonces, hcnt, hhid,
                incrementUsage]⟩
          · exact ⟨[HookCall.getUsageCountCall path humanId],
              by simp [hl, hrec, recordNonce, getUsageCount_set_nonces, hcnt, hhid],
              by simp, by simp,
              by simp [hl, hrec, recordNonce, getUsageCount_set_nonces, hcnt, hhid]⟩
        | discount percent usesOpt =>
          exact ⟨[], by simp [hl, hrec, recordNonce, hhid], by simp, by simp,
            by simp [hl, hrec, recordNonce, hhid]⟩

/-- C3: with a storage that supports nonce recording, recordNonce is invoked
exactly when header resolution, header parse, message validation and
signature verification all succeed, and then for the nonce of the parsed
payload, which is also added to the nonce set; in the call trace every
recordNonce call precedes every lookupHuman call; and once a nonce is in the
nonce set, any later validation through the nonce check the hook builds from
that state fails for any payload carrying that nonce. -/
theorem C3_nonce_recording (env : JsEnv) (s : StorageConfig) (mode : AgentkitMode)
    (getHeader : String → Option String) (getUrl path : String) (st : HookState)
    (hrec : s.recordNonceSupported = true) :
    (∀ header payload r addr,
      effectiveHeader getHeader = some header → ¬(header = "") →
      env.parseHeader header = Except.ok payload →
      validateAgentkitMessage env payload getUrl none
        (checkNonceOf { mode := mode, storage := some s } st) = Except.ok r →
      r.valid = true →
      (verifyAgentkitSignature env payload).valid = true →
      (verifyAgentkitSignature env payload).address = some addr → ¬(addr = "") →
      HookCall.recordNonceCall payload.nonce ∈
        (requestHook env { mode := mode, storage := some s } getHeader getUrl path st).calls ∧
      payload.nonce ∈
        (requestHook env { mode := mode, storage := some s } getHeader getUrl path st).state.nonces) ∧
    (∀ n, HookCall.recordNonceCall n ∈
        (requestHook env { mode := mode, storage := some s } getHeader getUrl path st).calls →
      ∃ payload addr,
        classifyRequest env { mode := mode, storage := some s } getHeader getUrl st =
          PipelineResult.verified payload addr ∧ n = payload.nonce) ∧
    (∀ i j n a c,
      (requestHook env { mode := mode, storage := some s } getHeader getUrl path st).calls.get? i =
        some (HookCall.recordNonceCall n) →
      (requestHook env { mode := mode, storage := some s } getHeader getUrl path st).calls.get? j =
        some (HookCall.lookupHumanCall a c) →
      i < j) ∧
    (∀ n f, s.hasUsedNonceSupported = true →
      n ∈ (requestHook env { mode := mode, storage := some s }
        getHeader getUrl path st).state.nonces →
      checkNonceOf { mode := mode, storage := some s }
        (requestHook env { mode := mode, storage := some s } getHeader getUrl path st).state =
          some f →
      ∀ (p2 : AgentkitPayload) (uri2 : String) (ma : Option Int)
        (r2 : AgentkitValidationResult),
        p2.nonce = n →
        validateAgentkitMessage env p2 uri2 ma (some f) = Except.ok r2 →
        r2.valid = false) := by
  refine ⟨?_, ?_, ?_, ?_⟩
  · intro header payload r addr hh hne hp hv hrv hsv hsa hane
    have hc := classifyRequest_verified env { mode := mode, storage := some s }
      getHeader getUrl st header payload r addr hh hne hp hv hrv hsv hsa hane
    obtain ⟨tail, hcalls, hno1, hno2, hnonces⟩ :=
      afterVerification_shape env s mode path st payload addr hrec
    simp only [requestHook, hc]
    rw [hcalls, hnonces]
    simp
  · intro n hmem
    cases hc : classifyRequest env { mode := mode, storage := some s } getHeader getUrl st with
    | noHeader => simp [requestHook, hc] at hmem
    | parseFailed msg => simp [requestHook, hc] at hmem
    | validateThrew msg => simp [requestHook, hc] at hmem
    | validationInvalid e => simp [requestHook, hc] at hmem
    | verificationFailed e => simp [requestHook, hc] at hmem
    | verified payload addr =>
      obtain ⟨tail, hcalls, hno1, hno2, hnonces⟩ :=
        afterVerification_shape env s mode path st payload addr hrec
      simp only [requestHook, hc] at hmem
      rw [hcalls] at hmem
      simp only [List.mem_cons] at hmem
      rcases hmem with h1 | h1 | h1
      · exact ⟨payload, addr, rfl, by simpa using h1⟩
      · cases h1
      · exact absurd h1 (hno1 n)
  · intro i j n a c hi hj
    cases hc : classifyRequest env { mode := mode, storage := some s } getHeader getUrl st with
    | noHeader => simp [requestHook, hc] at hi
    | parseFailed msg => simp [requestHook, hc] at hi
    | validateThrew msg => simp [requestHook, hc] at hi
    | validationInvalid e => simp [requestHook, hc] at hi
    | verificationFailed e => simp [requestHook, hc] at hi
    | verified payload addr =>
      obtain ⟨tail, hcalls, hno1, hno2, hnonces⟩ :=
        afterVerification_shape env s mode path st payload addr hrec
      simp only [requestHook, hc] at hi hj
      rw [hcalls] at hi hj
      match j, hj with
      | 0, hj => simp at hj
      | 1, hj =>
        match i, hi with
        | 0, hi => omega
        | 1, hi => simp at hi
        | Nat.succ (Nat.succ i), hi =>
          rw [List.get?_cons_succ, List.get?_cons_succ] at hi
          exact absurd (List.get?_mem hi) (hno1 n)
      | Nat.succ (Nat.succ j), hj =>
        rw [List.get?_cons_succ, List.get?_cons_succ] at hj
        exact absurd (List.get?_mem hj) (hno2 a c)
  · intro n f hchk hmem hf p2 uri2 ma r2 hn2 hval
    have hfeq : f = fun m => !(hasUsedNonce
        (requestHook env { mode := mode, storage := some s } getHeader getUrl path st).state m) := by
      simp [checkNonceOf, hchk] at hf
      exact hf.symm
    cases hb : r2.valid with
    | false => rfl
    | true =>
      exfalso
      have hreq := validate_nonce_required env p2 uri2 ma f r2 hval hb
      rw [hfeq] at hreq
      simp only [hn2] at hreq
      rw [hasUsedNonce] at hreq
      simp [List.elem_eq_true_of_mem hmem] at hreq
      exact hreq hmem

/-- Storage flags with both optional nonce methods present. -/
def flagsBothNonce : StorageConfig :=
  { hasUsedNonceSupported := true, recordNonceSupported := true }

/-- C3 witness: the recording theorem applied to the fixture whose pipeline
succeeds, so its nonce is recorded in the call trace and the nonce set. -/
theorem C3_witness :
    HookCall.recordNonceCall "n1" ∈
      (requestHook testEnv { mode := AgentkitMode.free, storage := some flagsBothNonce }
        adapterLower "https://api.x/data" "/data" emptyState).calls ∧
    "n1" ∈
      (requestHook testEnv { mode := AgentkitMode.free, storage := some flagsBothNonce }
        adapterLower "https://api.x/data" "/data" emptyState).state.nonces :=
  (C3_nonce_recording testEnv flagsBothNonce AgentkitMode.free adapterLower
    "https://api.x/data" "/data" emptyState rfl).1 "HDR" testPayloadEvm
    { valid := true, error := none } "0xA" rfl (by decide) rfl rfl rfl rfl rfl (by decide)

/-- Truncating division of nonnegative integers is Nat division. -/
theorem int_tdiv_natCast (a b : Nat) :
    Int.tdiv (a : Int) (b : Int) = ((a / b : Nat) : Int) := rfl

/-- Replacing the pending-discount map does not change any usage counter. -/
theorem getUsageCount_set_pending (st : HookState) (l : List (String × PendingDiscount))
    (ep hid : String) :
    getUsageCount { st with pendingDiscounts := l } ep hid = getUsageCount st ep hid := rfl

/-- A no-decision outcome of the verify-failure hook. -/
def vfhNoneOutcome (st1 : HookState) (reqStr : String) (calls : List HookCall)
    (events : List HookEvent) : VerifyFailureOutcome :=
  { recovered := none, requirementsAmount := reqStr, state := st1,
    calls := calls, events := events }

/-- The hook state after the single-use delete of the pending record. -/
def vfhErased (st : HookState) (key : String) : HookState :=
  { st with pendingDiscounts := eraseAssoc st.pendingDiscounts key }

/-- Evaluation of the verify-failure hook when no pending record exists. -/
theorem verifyFailureHook_noPending (env : JsEnv) (percent : Int) (usesOpt : Option Nat)
    (st : HookState) (url : String) (payload : PaymentPayloadModel) (reqStr errMsg : String)
    (parts : URLParts) (payer : String)
    (hurl : env.parseURL url = some parts)
    (hpayer : extractPayer payload = some payer) (hpne : ¬(payer = ""))
    (hpend : lookupAssoc st.pendingDiscounts (parts.pathname ++ ":" ++ payer) = none) :
    verifyFailureHook env percent usesOpt st url payload reqStr errMsg =
      Except.ok (vfhNoneOutcome (vfhErased st (parts.pathname ++ ":" ++ payer)) reqStr [] []) := by
  simp only [verifyFailureHook, hurl, hpayer]
  rw [if_neg hpne]
  simp [hpend, vfhNoneOutcome, vfhErased]

/-- Evaluation of the verify-failure hook when the facilitator error is not
in the underpayment set. -/
theorem verifyFailureHook_notUnderpayment (env : JsEnv) (percent : Int) (usesOpt : Option Nat)
    (st : HookState) (url : String) (payload : PaymentPayloadModel) (reqStr errMsg : String)
    (parts : URLParts) (payer : String) (pend : PendingDiscount)
    (hurl : env.parseURL url = some parts)
    (hpayer : extractPayer payload = some payer) (hpne : ¬(payer = ""))
    (hpend : lookupAssoc st.pendingDiscounts (parts.pathname ++ ":" ++ payer) = some pend)
    (hund : isUnderpaymentError errMsg = false) :
    verifyFailureHook env percent usesOpt st url payload reqStr errMsg =
      Except.ok (vfhNoneOutcome (vfhErased st (parts.pathname ++ ":" ++ payer)) reqStr [] []) := by
  simp only [verifyFailureHook, hurl, hpayer]
  rw [if_neg hpne]
  simp [hpend, hund, vfhNoneOutcome, vfhErased]

/-- Evaluation of the verify-failure hook when the usage cap is reached. -/
theorem verifyFailureHook_capReached (env : JsEnv) (percent : Int) (u : Nat)
    (st : HookState) (url : String) (payload : PaymentPayloadModel) (reqStr errMsg : String)
    (parts : URLParts) (payer : String) (pend : PendingDiscount)
    (hurl : env.parseURL url = some parts)
    (hpayer : extractPayer payload = some payer) (hpne : ¬(payer = ""))
    (hpend : lookupAssoc st.pendingDiscounts (parts.pathname ++ ":" ++ payer) = some pend)
    (hund : isUnderpaymentError errMsg = true)
    (hcap : u ≤ getUsageCount st parts.pathname pend.humanId) :
    verifyFailureHook env percent (some u) st url payload reqStr errMsg =
      Except.ok (vfhNoneOutcome (vfhErased st (parts.pathname ++ ":" ++ payer)) reqStr
        [HookCall.getUsageCountCall parts.pathname pend.humanId]
        [HookEvent.discountExhausted parts.pathname pend.address pend.humanId]) := by
  simp only [verifyFailureHook, hurl, hpayer]
  rw [if_neg hpne]
  simp only [hpend, hund, Bool.not_true, Bool.false_eq_true, if_false]
  rw [if_pos (by simpa [getUsageCount_set_pending] using hcap)]
  rfl

/-- Evaluation of the verify-failure hook in the amount-comparison stage:
pending record present, underpayment error, cap not reached. -/
theorem verifyFailureHook_amounts (env : JsEnv) (percent : Int) (usesOpt : Option Nat)
    (st : HookState) (url : String) (payload : PaymentPayloadModel) (reqStr errMsg : String)
    (parts : URLParts) (payer : String) (pend : PendingDiscount) (R paid : Int)
    (hurl : env.parseURL url = some parts)
    (hpayer : extractPayer payload = some payer) (hpne : ¬(payer = ""))
    (hpend : lookupAssoc st.pendingDiscounts (parts.pathname ++ ":" ++ payer) = some pend)
    (hund : isUnderpaymentError errMsg = true)
    (hcapn : ∀ u, usesOpt = some u → getUsageCount st parts.pathname pend.humanId < u)
    (hreq : parseBigInt reqStr = some R)
    (hpaid : extractPaidAmount payload = some paid) :
    verifyFailureHook env percent usesOpt st url payload reqStr errMsg =
      (if paid < Int.tdiv (R * (100 - percent)) 100 then
        Except.ok (vfhNoneOutcome (vfhErased st (parts.pathname ++ ":" ++ payer)) reqStr
          [HookCall.getUsageCountCall parts.pathname pend.humanId] [])
      else if paid ≥ R then
        Except.ok (vfhNoneOutcome (vfhErased st (parts.pathname ++ ":" ++ payer)) reqStr
          [HookCall.getUsageCountCall parts.pathname pend.humanId] [])
      else
        Except.ok
          { recovered := some { isValid := true, payer := some pend.address },
            requirementsAmount := toString paid,
            state := incrementUsage (vfhErased st (parts.pathname ++ ":" ++ payer))
              parts.pathname pend.humanId,
            calls := [HookCall.getUsageCountCall parts.pathname pend.humanId,
              HookCall.incrementUsageCall parts.pathname pend.humanId],
            events := [HookEvent.discountApplied parts.pathname pend.address
              pend.humanId] }) := by
  simp only [verifyFailureHook, hurl, hpayer]
  rw [if_neg hpne]
  simp only [hpend, hund, Bool.not_true, Bool.false_eq_true, if_false]
  rw [if_neg ?hc]
  rw [hreq]
  simp only [hpaid]
  rfl
  case hc =>
    rcases usesOpt with _ | u
    · simp
    · have := hcapn u rfl
      simp only [getUsageCount_set_pending, decide_eq_true_eq]
      omega

/-- C1: in discount mode, the verify-failure hook computes the discounted
amount as floor(required times (100 - percent) over 100) in exact integer
arithmetic (BigInt truncation agrees with the floor on these nonnegative
values); it returns a recovered result — incrementing the usage counter,
emitting discount_applied, and setting requirements.amount to the paid
amount — exactly when a pending record exists, the facilitator error is in
the underpayment set, the usage cap is not reached, and
discountedAmount ≤ paid < required; when paid < discountedAmount or
paid ≥ required it returns no decision. -/
theorem C1_discount_recovery (env : JsEnv) (percent : Int) (usesOpt : Option Nat)
    (st : HookState) (url : String) (payload : PaymentPayloadModel)
    (reqStr errMsg : String) (parts : URLParts) (Rn : Nat) (payer : String) (paid : Int)
    (hurl : env.parseURL url = some parts)
    (hreq : parseBigInt reqStr = some (Rn : Int))
    (hp1 : 1 ≤ percent) (hp100 : percent ≤ 100)
    (hpayer : extractPayer payload = some payer) (hpne : ¬(payer = ""))
    (hpaid : extractPaidAmount payload = some paid) :
    Int.tdiv ((Rn : Int) * (100 - percent)) 100 =
      ((Rn * (100 - percent).toNat / 100 : Nat) : Int) ∧
    (∀ pend,
      lookupAssoc st.pendingDiscounts (parts.pathname ++ ":" ++ payer) = some pend →
      isUnderpaymentError errMsg = true →
      (∀ u, usesOpt = some u → getUsageCount st parts.pathname pend.humanId < u) →
      Int.tdiv ((Rn : Int) * (100 - percent)) 100 ≤ paid → paid < (Rn : Int) →
      verifyFailureHook env percent usesOpt st url payload reqStr errMsg =
        Except.ok
          { recovered := some { isValid := true, payer := some pend.address },
            requirementsAmount := toString paid,
            state := incrementUsage (vfhErased st (parts.pathname ++ ":" ++ payer))
              parts.pathname pend.humanId,
            calls := [HookCall.getUsageCountCall parts.pathname pend.humanId,
              HookCall.incrementUsageCall parts.pathname pend.humanId],
            events := [HookEvent.discountApplied parts.pathname pend.address
              pend.humanId] }) ∧
    (paid < Int.tdiv ((Rn : Int) * (100 - percent)) 100 →
      ∃ out, verifyFailureHook env percent usesOpt st url payload reqStr errMsg =
        Except.ok out ∧ out.recovered = none) ∧
    ((Rn : Int) ≤ paid →
      ∃ out, verifyFailureHook env percent usesOpt st url payload reqStr errMsg =
        Except.ok out ∧ out.recovered = none) ∧
    (∀ out, verifyFailureHook env percent usesOpt st url payload reqStr errMsg =
        Except.ok out → out.recovered.isSome = true →
      ∃ pend,
        lookupAssoc st.pendingDiscounts (parts.pathname ++ ":" ++ payer) = some pend ∧
        isUnderpaymentError errMsg = true ∧
        (∀ u, usesOpt = some u → getUsageCount st parts.pathname pend.humanId < u) ∧
        Int.tdiv ((Rn : Int) * (100 - percent)) 100 ≤ paid ∧ paid < (Rn : Int)) := by
  have hfloor : Int.tdiv ((Rn : Int) * (100 - percent)) 100 =
      ((Rn * (100 - percent).toNat / 100 : Nat) : Int) := by
    have hsub : ((100 : Int) - percent) = (((100 - percent).toNat : Nat) : Int) := by omega
    rw [hsub, ← Nat.cast_mul]
    exact int_tdiv_natCast (Rn * (100 - percent).toNat) 100
  refine ⟨hfloor, ?_, ?_, ?_, ?_⟩
  · intro pend hpend hund hcapn hdle hlt
    rw [verifyFailureHook_amounts env percent usesOpt st url payload reqStr errMsg parts
      payer pend (Rn : Int) paid hurl hpayer hpne hpend hund hcapn hreq hpaid]
    rw [if_neg (by omega), if_neg (by omega)]
  · intro hplt
    cases hpend : lookupAssoc st.pendingDiscounts (parts.pathname ++ ":" ++ payer) with
    | none =>
      exact ⟨_, verifyFailureHook_noPending env percent usesOpt st url payload reqStr errMsg
        parts payer hurl hpayer hpne hpend, rfl⟩
    | some pend =>
      cases hund : isUnderpaymentError errMsg with
      | false =>
        exact ⟨_, verifyFailureHook_notUnderpayment env percent usesOpt st url payload reqStr
          errMsg parts payer pend hurl hpayer hpne hpend hund, rfl⟩
      | true =>
        by_cases hcape : ∃ u, usesOpt = some u ∧
            u ≤ getUsageCount st parts.pathname pend.humanId
        · obtain ⟨u, huo, hcap⟩ := hcape
          rw [huo]
          exact ⟨_, verifyFailureHook_capReached env percent u st url payload reqStr errMsg
            parts payer pend hurl hpayer hpne hpend hund hcap, rfl⟩
        · have hcapn : ∀ u, usesOpt = some u →
              getUsageCount st parts.pathname pend.humanId < u := by
            intro u hu
            by_contra hle
            exact hcape ⟨u, hu, by omega⟩
          refine ⟨vfhNoneOutcome (vfhErased st (parts.pathname ++ ":" ++ payer)) reqStr
            [HookCall.getUsageCountCall parts.pathname pend.humanId] [], ?_, rfl⟩
          rw [verifyFailureHook_amounts env percent usesOpt st url payload reqStr errMsg
            parts payer pend (Rn : Int) paid hurl hpayer hpne hpend hund hcapn hreq hpaid]
          rw [if_pos hplt]
  · intro hRle
    cases hpend : lookupAssoc st.pendingDiscounts (parts.pathname ++ ":" ++ payer) with
    | none =>
      exact ⟨_, verifyFailureHook_noPending env percent usesOpt st url payload reqStr errMsg
        parts payer hurl hpayer hpne hpend, rfl⟩
    | some pend =>
      cases hund : isUnderpaymentError errMsg with
      | false =>
        exact ⟨_, verifyFailureHook_notUnderpayment env percent usesOpt st url payload reqStr
          errMsg parts payer pend hurl hpayer hpne hpend hund, rfl⟩
      | true =>
        by_cases hcape : ∃ u, usesOpt = some u ∧
            u ≤ getUsageCount st parts.pathname pend.humanId
        · obtain ⟨u, huo, hcap⟩ := hcape
          rw [huo]
          exact ⟨_, verifyFailureHook_capReached env percent u st url payload reqStr errMsg
            parts payer pend hurl hpayer hpne hpend hund hcap, rfl⟩
        · have hcapn : ∀ u, usesOpt = some u →
              getUsageCount st parts.pathname pend.humanId < u := by
            intro u hu
            by_contra hle
            exact hcape ⟨u, hu, by omega⟩
          refine ⟨vfhNoneOutcome (vfhErased st (parts.pathname ++ ":" ++ payer)) reqStr
            [HookCall.getUsageCountCall parts.pathname pend.humanId] [], ?_, rfl⟩
          rw [verifyFailureHook_amounts env percent usesOpt st url payload reqStr errMsg
            parts payer pend (Rn : Int) paid hurl hpayer hpne hpend hund hcapn hreq hpaid]
          by_cases hplt : paid < Int.tdiv ((Rn : Int) * (100 - percent)) 100
          · rw [if_pos hplt]
          · rw [if_neg hplt, if_pos (by omega : paid ≥ (Rn : Int))]
  · intro out hout hsome
    cases hpend : lookupAssoc st.pendingDiscounts (parts.pathname ++ ":" ++ payer) with
    | none =>
      rw [verifyFailureHook_noPending env percent usesOpt st url payload reqStr errMsg
        parts payer hurl hpayer hpne hpend] at hout
      cases hout
      simp [vfhNoneOutcome] at hsome
    | some pend =>
      cases hund : isUnderpaymentError errMsg with
      | false =>
        rw [verifyFailureHook_notUnderpayment env percent usesOpt st url payload reqStr
          errMsg parts payer pend hurl hpayer hpne hpend hund] at hout
        cases hout
        simp [vfhNoneOutcome] at hsome
      | true =>
        by_cases hcape : ∃ u, usesOpt = some u ∧
            u ≤ getUsageCount st parts.pathname pend.humanId
        · obtain ⟨u, huo, hcap⟩ := hcape
          rw [huo] at hout
          rw [verifyFailureHook_capReached env percent u st url payload reqStr errMsg
            parts payer pend hurl hpayer hpne hpend hund hcap] at hout
          cases hout
          simp [vfhNoneOutcome] at hsome
        · have hcapn : ∀ u, usesOpt = some u →
              getUsageCount st parts.pathname pend.humanId < u := by
            intro u hu
            by_contra hle
            exact hcape ⟨u, hu, by omega⟩
          rw [verifyFailureHook_amounts env percent usesOpt st url payload reqStr errMsg
            parts payer pend (Rn : Int) paid hurl hpayer hpne hpend hund hcapn hreq
            hpaid] at hout
          by_cases hplt : paid < Int.tdiv ((Rn : Int) * (100 - percent)) 100
          · rw [if_pos hplt] at hout
            cases hout
            simp [vfhNoneOutcome] at hsome
          · by_cases hRge : paid ≥ (Rn : Int)
            · rw [if_neg hplt, if_pos hRge] at hout
              cases hout
              simp [vfhNoneOutcome] at hsome
            · exact ⟨pend, rfl, rfl, hcapn, by omega, by omega⟩

/-- State holding a pending-discount record for wallet 0xA on /data. -/
def pendingStateC1 : HookState :=
  { usage := [], nonces := [],
    pendingDiscounts := [("/data:0xA", { humanId := "0xH", address := "0xA", createdAt := 0 })] }

/-- EIP-3009 payment payload paying 500 from 0xA. -/
def paymentPayloadC1 : PaymentPayloadModel :=
  PaymentPayloadModel.eip3009 { fromAddr := some "0xA", value := some "500" }

/-- C1 witness: discount 50 percent of a required 1000 recovers a payment of
500 (the exact floor), incrementing the counter and mutating the requirement
amount to 500. -/
theorem C1_witness :
    verifyFailureHook testEnv 50 (some 10) pendingStateC1 "https://api.x/data"
      paymentPayloadC1 "1000" "invalid_exact_evm_payload_authorization_value: mismatch" =
      Except.ok
        { recovered := some { isValid := true, payer := some "0xA" },
          requirementsAmount := "500",
          state := incrementUsage (vfhErased pendingStateC1 "/data:0xA") "/data" "0xH",
          calls := [HookCall.getUsageCountCall "/data" "0xH",
            HookCall.incrementUsageCall "/data" "0xH"],
          events := [HookEvent.discountApplied "/data" "0xA" "0xH"] } ∧
    Int.tdiv ((1000 : Int) * (100 - 50)) 100 = ((1000 * 50 / 100 : Nat) : Int) := by
  have h := C1_discount_recovery testEnv 50 (some 10) pendingStateC1 "https://api.x/data"
    paymentPayloadC1 "1000" "invalid_exact_evm_payload_authorization_value: mismatch"
    testURLData 1000 "0xA" 500 rfl (by rfl) (by decide) (by decide) rfl (by decide) (by rfl)
  constructor
  · have hb := h.2.1 { humanId := "0xH", address := "0xA", createdAt := 0 } rfl (by rfl)
      (fun u hu => by cases hu; decide) (by decide) (by decide)
    exact hb.trans (by rfl)
  · exact h.1

end Agentkit
